import Mathlib

/-!
Shallow embedding of `process_olympic_data.py` (`process_data` and the
grouped-aggregation helpers it calls).

Modelling conventions:
* One input `Row` is one line of the athletes table after the type coercions
  performed at the top of `process_data`: `Year` goes through
  `pd.to_numeric(..., errors="coerce")`, so it is an `Option Int` (`none` is
  the NaN marker for a value that failed coercion); `code` is a string; the
  host-country column is an `Int` (already `fillna(0).astype(int)`).
* `pandas.groupby` over a key that contains the (possibly NaN) `Year` drops
  rows whose key is missing; groupbys are modelled with `filterMap`/`dedup`
  over the key lists.  Group *order* (pandas sorts keys) is irrelevant to all
  properties proved here, which are stated up to membership and counting.
* Python's float division and `mean` are modelled with exact rationals.
* `sorted(unique(Year))` is modelled as sorting of the finite set of the
  *valid* (coercible) years; Python's `sorted` on a list containing NaN has
  no order-theoretic meaning, so theorems whose truth depends on the order of
  the year sequence carry the spec's data-model invariant that every year is
  coercible (`(r.year).isSome`).
* `Name` and `Event` are total strings, per the spec data model, so pandas'
  NaN-skipping `count` of `Name` is the plain row count of the group.
-/

namespace OlympicStats

/-- One athlete-event appearance, after the numeric coercions of
`process_data`: `year` is `none` when `pd.to_numeric` yielded NaN;
`medal` is `none` when the medal cell is missing (NaN). -/
structure Row where
  year : Option Int
  noc : String
  code : String
  event : String
  name : String
  medal : Option String
  host : Int
deriving DecidableEq, Repr

/-- The grouping key of `df.groupby(["Year", "NOC", "code"])`: (year, noc,
sport code).  A row with a missing year has no key (pandas drops it). -/
def rowKey? (r : Row) : Option (Int × String × String) :=
  (r.year).map (fun y => (y, r.noc, r.code))

/-- The distinct (year, noc, code) keys of the `stats` groupby: one per key
present among the rows whose year coerced successfully. -/
def statsKeys (df : List Row) : List (Int × String × String) :=
  (df.filterMap rowKey?).dedup

/-- Rows of one (year, noc, code) group. -/
def keyRows (df : List Row) (y : Int) (n c : String) : List Row :=
  df.filter (fun r => decide (r.year = some y ∧ r.noc = n ∧ r.code = c))

/-- `"Name": "count"` per group: names are total strings, so the count is the
group size (the participation head-count of that key). -/
def participation (df : List Row) (y : Int) (n c : String) : Nat :=
  (keyRows df y n c).length

/-- `(x == "Gold").sum()` per group. -/
def goldCount (df : List Row) (y : Int) (n c : String) : Nat :=
  ((keyRows df y n c).filter (fun r => decide (r.medal = some "Gold"))).length

/-- `(x == "Silver").sum()` per group. -/
def silverCount (df : List Row) (y : Int) (n c : String) : Nat :=
  ((keyRows df y n c).filter (fun r => decide (r.medal = some "Silver"))).length

/-- `(x == "Bronze").sum()` per group. -/
def bronzeCount (df : List Row) (y : Int) (n c : String) : Nat :=
  ((keyRows df y n c).filter (fun r => decide (r.medal = some "Bronze"))).length

/-- `"Event": "nunique"` per group. -/
def eventCount (df : List Row) (y : Int) (n c : String) : Nat :=
  ((keyRows df y n c).map (fun r => r.event)).dedup.length

/-- `df.groupby("Year")["Name"].count()` looked up at a (valid) year:
participation of the whole Games of that year. -/
def yearTotal (df : List Row) (y : Int) : Nat :=
  (df.filter (fun r => decide (r.year = some y))).length

/-- `groupby(["时间", "大类项目代码"])[...].transform("sum")`: the per-key
participation summed over all stats keys sharing (year, code). -/
def yearSportTotal (df : List Row) (y : Int) (c : String) : Nat :=
  (((statsKeys df).filter (fun k => decide (k.1 = y ∧ k.2.2 = c))).map
    (fun k => participation df k.1 k.2.1 k.2.2)).sum

/-- Host-flag lookup: `1 if (year, noc) in host_dict else 0`, where
`host_dict` holds the (Year, NOC) pairs of rows whose host column is 1.
A host row with a missing year can never match a stats key. -/
def isHostFlag (df : List Row) (y : Int) (n : String) : Nat :=
  if df.any (fun r => decide (r.host = 1 ∧ r.year = some y ∧ r.noc = n)) then 1 else 0

/-- `sorted(df["Year"].unique())` over the valid (coercible) years. -/
def sortedYears (df : List Row) : List Int :=
  ((df.filterMap (fun r => r.year)).dedup).insertionSort (· ≤ ·)

/-- Python's `list.index`, total: index of the first occurrence, `none` when
absent (where CPython raises `ValueError`, caught by the per-row handler). -/
def listIndex? (l : List Int) (y : Int) : Option Nat :=
  match l with
  | [] => none
  | a :: t => if a = y then some 0 else (listIndex? t y).map (fun i => i + 1)

/-- `pd.notna(Medal) and Medal != "No medal"`. -/
def hasMedalB (r : Row) : Bool :=
  match r.medal with
  | some m => m ≠ "No medal"
  | none => false

/-- `athlete_medals_dict[(noc, code, name, year)]`: the number of
medal-winning appearance rows of one athlete for one country, sport and
Games (0 when the key is absent from the dict). -/
def medalYearCount (df : List Row) (n c a : String) (y : Int) : Nat :=
  (df.filter (fun r =>
    hasMedalB r && decide (r.noc = n ∧ r.code = c ∧ r.name = a ∧ r.year = some y))).length

/-- The athletes appearing in `athletes_medals` for one stats row: distinct
names holding at least one medal row for (noc, code) in one of the two
lookback years. -/
def lookbackCandidates (df : List Row) (n c : String) (ly py : Int) : List String :=
  ((df.filter (fun r =>
    hasMedalB r && decide (r.noc = n ∧ r.code = c ∧ (r.year = some ly ∨ r.year = some py)))).map
      (fun r => r.name)).dedup

/-- The per-row body of the star/rising loop of `process_data`: find the
row's year in the global year sequence (`none` models the caught
`ValueError`, falling back to (0, 0)); with fewer than two preceding
Olympiads emit (0, 0); otherwise count, over the candidate athletes of
(noc, code), those medalling in both preceding Games and those with two or
more medals in the immediately preceding Games. -/
def starRisingForYear (df : List Row) (n c : String) (y : Int) : Nat × Nat :=
  let ys := sortedYears df
  match listIndex? ys y with
  | none => (0, 0)
  | some i =>
    if i < 2 then (0, 0)
    else
      let ly := ys.getD (i - 1) 0
      let py := ys.getD (i - 2) 0
      let cands := lookbackCandidates df n c ly py
      ((cands.filter (fun a =>
          decide (0 < medalYearCount df n c a ly ∧ 0 < medalYearCount df n c a py))).length,
       (cands.filter (fun a => decide (2 ≤ medalYearCount df n c a ly))).length)

/-- `medal_rank`: Gold 1, Silver 2, Bronze 3, anything else (including
"No medal", unknown strings and NaN) 4. -/
def medalRank (m : Option String) : Nat :=
  match m with
  | some "Gold" => 1
  | some "Silver" => 2
  | some "Bronze" => 3
  | _ => 4

/-- `min(medal_rank.get(m, 4) for m in x, default=4)` over one athlete's
rows of the historical slice. -/
def bestMedal (rows : List Row) (a : String) : Nat :=
  ((rows.filter (fun r => decide (r.name = a))).map (fun r => medalRank r.medal)).foldr min 4

/-- Rows of one `df.groupby(["NOC", "code"])` group (missing years do not
exclude a row from this grouping). -/
def groupNC (df : List Row) (n c : String) : List Row :=
  df.filter (fun r => decide (r.noc = n ∧ r.code = c))

/-- `calculate_historical_rates` on one (NOC, code) group: fewer than two
distinct years gives zero rates; otherwise restrict to years strictly
before the group's latest year, deduplicate athletes keeping each one's
best medal, and divide each best-medal head-count by the number of
distinct athletes of the slice (zero rates when that number is 0). -/
def historicalRates (group : List Row) : ℚ × ℚ × ℚ :=
  let years := sortedYears group
  if years.length < 2 then (0, 0, 0)
  else
    let currentYear := years.getLastD 0
    let hist := group.filter (fun r => (r.year).any (fun y => decide (y < currentYear)))
    let athletes := (hist.map (fun r => r.name)).dedup
    if athletes.length = 0 then (0, 0, 0)
    else
      let g := (athletes.filter (fun a => decide (bestMedal hist a = 1))).length
      let s := (athletes.filter (fun a => decide (bestMedal hist a = 2))).length
      let b := (athletes.filter (fun a => decide (bestMedal hist a = 3))).length
      ((g : ℚ) / (athletes.length : ℚ),
       (s : ℚ) / (athletes.length : ℚ),
       (b : ℚ) / (athletes.length : ℚ))

/-- Python's `max` over a list, total (`none` on the empty list); pandas'
NaN-skipping `max` over a group's years is this over the valid years. -/
def listMax? (l : List Int) : Option Int :=
  match l with
  | [] => none
  | a :: t =>
    match listMax? t with
    | none => some a
    | some m => some (max a m)

/-- Python's `min` over a list, total (`none` on the empty list). -/
def listMin? (l : List Int) : Option Int :=
  match l with
  | [] => none
  | a :: t =>
    match listMin? t with
    | none => some a
    | some m => some (min a m)

/-- The valid years of one athlete's rows inside a group
(`group.groupby("Name")["Year"]`). -/
def athleteYears (group : List Row) (a : String) : List Int :=
  (group.filter (fun r => decide (r.name = a))).filterMap (fun r => r.year)

/-- One athlete's career span `max(Year) - min(Year)` inside the group;
`none` when the athlete has no valid year (pandas would give NaN). -/
def nameSpan? (group : List Row) (a : String) : Option Int :=
  match listMax? (athleteYears group a), listMin? (athleteYears group a) with
  | some hi, some lo => some (hi - lo)
  | _, _ => none

/-- `calculate_career_length` on one (NOC, code) group: per-athlete spans,
spans above 24 discarded, the whole group forced to 0 when its earliest
year (`athlete_years["min"].min()`, i.e. the least valid year of the
group) is 1896, otherwise the mean of the surviving spans (0 when none
survive). -/
def careerLength (group : List Row) : ℚ :=
  if group.isEmpty then 0
  else
    let names := (group.map (fun r => r.name)).dedup
    let spans := names.filterMap (nameSpan? group)
    let valid := spans.filter (fun s => decide (s ≤ 24))
    if listMin? (group.filterMap (fun r => r.year)) = some 1896 then 0
    else if valid.isEmpty then 0
    else ((valid.sum : Int) : ℚ) / (valid.length : ℚ)

/-- One row of the `stats` table of `process_data` (everything computed
before the two (NOC, code)-grain merges). -/
structure StatsRow where
  time : Int
  noc : String
  code : String
  isHost : Nat
  yearTotal : Nat
  yearSportTotal : Nat
  participation : Nat
  eventCount : Nat
  starCount : Nat
  risingCount : Nat
  goldCount : Nat
  silverCount : Nat
  bronzeCount : Nat
deriving DecidableEq, Repr

/-- The `stats` row of one (year, noc, code) key. -/
def mkStatsRow (df : List Row) (k : Int × String × String) : StatsRow :=
  { time := k.1
    noc := k.2.1
    code := k.2.2
    isHost := isHostFlag df k.1 k.2.1
    yearTotal := yearTotal df k.1
    yearSportTotal := yearSportTotal df k.1 k.2.2
    participation := participation df k.1 k.2.1 k.2.2
    eventCount := eventCount df k.1 k.2.1 k.2.2
    starCount := (starRisingForYear df k.2.1 k.2.2 k.1).1
    risingCount := (starRisingForYear df k.2.1 k.2.2 k.1).2
    goldCount := goldCount df k.1 k.2.1 k.2.2
    silverCount := silverCount df k.1 k.2.1 k.2.2
    bronzeCount := bronzeCount df k.1 k.2.1 k.2.2 }

/-- The `stats` table: one row per groupby key. -/
def statsRows (df : List Row) : List StatsRow :=
  (statsKeys df).map (mkStatsRow df)

/-- The distinct (NOC, code) pairs of `df.groupby(["NOC", "code"])` (built
from every row, missing year or not). -/
def ncKeys (df : List Row) : List (String × String) :=
  (df.map (fun r => (r.noc, r.code))).dedup

/-- The `rates` table: one (noc, code, rate-triple) row per groupby pair. -/
def ratesTable (df : List Row) : List (String × String × (ℚ × ℚ × ℚ)) :=
  (ncKeys df).map (fun p => (p.1, p.2, historicalRates (groupNC df p.1 p.2)))

/-- The `career` table: one (noc, code, mean-span) row per groupby pair. -/
def careerTable (df : List Row) : List (String × String × ℚ) :=
  (ncKeys df).map (fun p => (p.1, p.2, careerLength (groupNC df p.1 p.2)))

/-- `merge(..., how="left")` on a (noc, code) key followed by the final
`fillna(0)`: each left row pairs with every matching right row, and a left
row with no match keeps one row whose joined column is the filled default. -/
def leftJoin {α β γ : Type} (l : List α) (tbl : List (String × String × β))
    (key : α → String × String) (comb : α → β → γ) (dflt : β) : List γ :=
  l.flatMap (fun x =>
    let ms := tbl.filter (fun t => decide (t.1 = (key x).1 ∧ t.2.1 = (key x).2))
    if ms.isEmpty then [comb x dflt] else ms.map (fun t => comb x t.2.2))

/-- One final output row (the 17 columns of `stats_output.csv`, in order). -/
structure OutRow where
  time : Int
  noc : String
  code : String
  isHost : Nat
  yearTotal : Nat
  yearSportTotal : Nat
  participation : Nat
  eventCount : Nat
  goldRate : ℚ
  silverRate : ℚ
  bronzeRate : ℚ
  starCount : Nat
  risingCount : Nat
  avgCareer : ℚ
  goldCount : Nat
  silverCount : Nat
  bronzeCount : Nat
deriving DecidableEq, Repr

/-- Assemble an output row from a stats row and the two joined columns. -/
def mkOut (s : StatsRow) (rates : ℚ × ℚ × ℚ) (career : ℚ) : OutRow :=
  { time := s.time
    noc := s.noc
    code := s.code
    isHost := s.isHost
    yearTotal := s.yearTotal
    yearSportTotal := s.yearSportTotal
    participation := s.participation
    eventCount := s.eventCount
    goldRate := rates.1
    silverRate := rates.2.1
    bronzeRate := rates.2.2
    starCount := s.starCount
    risingCount := s.risingCount
    avgCareer := career
    goldCount := s.goldCount
    silverCount := s.silverCount
    bronzeCount := s.bronzeCount }

/-- The whole `process_data` pipeline on an in-memory table: build `stats`,
left-join the `rates` table, left-join the `career` table, fill the joined
columns of unmatched rows with 0. -/
def processData (df : List Row) : List OutRow :=
  leftJoin
    (leftJoin (statsRows df) (ratesTable df) (fun s => (s.noc, s.code))
      (fun s rts => (s, rts)) (0, 0, 0))
    (careerTable df)
    (fun p => (p.1.noc, p.1.code))
    (fun p cv => mkOut p.1 p.2 cv)
    0

/-! ### Structure of the joined output: the two left-joins collapse to a map
over the groupby keys, because each right table has exactly one row per
(noc, code) pair and every stats row's pair occurs in both tables. -/

lemma filter_eq_singleton_of_nodup {α : Type} [DecidableEq α] {l : List α} {a : α}
    (hn : l.Nodup) (ha : a ∈ l) : l.filter (fun x => decide (x = a)) = [a] := by
  induction l with
  | nil => cases ha
  | cons b t ih =>
    rw [List.nodup_cons] at hn
    rcases List.mem_cons.mp ha with h | h
    · subst h
      have : t.filter (fun x => decide (x = a)) = [] :=
        List.filter_eq_nil_iff.mpr (fun x hx => by
          simp only [decide_eq_true_eq]
          exact fun e => hn.1 (e ▸ hx))
      simp [List.filter_cons, this]
    · have hba : ¬(b = a) := fun e => hn.1 (e ▸ h)
      rw [List.filter_cons]
      simp only [decide_eq_true_eq, if_neg hba]
      exact ih hn.2 h

lemma table_filter_eq {β : Type} {keys : List (String × String)} (hk : keys.Nodup)
    (f : String × String → β) {n c : String} (h : (n, c) ∈ keys) :
    (keys.map (fun p => (p.1, p.2, f p))).filter
        (fun t => decide (t.1 = n ∧ t.2.1 = c)) = [(n, c, f (n, c))] := by
  rw [List.filter_map]
  have hpred : ((fun t : String × String × β => decide (t.1 = n ∧ t.2.1 = c)) ∘
      (fun p => (p.1, p.2, f p))) = fun p => decide (p = (n, c)) := by
    funext p
    simp only [Function.comp_apply]
    refine decide_eq_decide.mpr ?_
    constructor
    · rintro ⟨h1, h2⟩
      exact Prod.ext h1 h2
    · rintro rfl
      exact ⟨rfl, rfl⟩
  rw [hpred, filter_eq_singleton_of_nodup hk h]
  rfl

lemma leftJoin_table_eq_map {α β γ : Type} (l : List α) (keys : List (String × String))
    (hk : keys.Nodup) (f : String × String → β) (key : α → String × String)
    (comb : α → β → γ) (dflt : β) (h : ∀ x ∈ l, key x ∈ keys) :
    leftJoin l (keys.map (fun p => (p.1, p.2, f p))) key comb dflt
      = l.map (fun x => comb x (f (key x))) := by
  induction l with
  | nil => rfl
  | cons a t ih =>
    have ha : ((key a).1, (key a).2) ∈ keys := by
      rw [Prod.mk.eta]
      exact h a (List.mem_cons_self a t)
    unfold leftJoin
    rw [List.flatMap_cons, table_filter_eq hk f ha]
    simp only [List.isEmpty_cons, List.map_cons, List.map_nil, Bool.false_eq_true,
      if_false, List.singleton_append]
    have ht := ih (fun x hx => h x (List.mem_cons_of_mem a hx))
    unfold leftJoin at ht
    rw [ht, Prod.mk.eta]

lemma mem_statsKeys_iff {df : List Row} {k : Int × String × String} :
    k ∈ statsKeys df ↔ ∃ r ∈ df, r.year = some k.1 ∧ r.noc = k.2.1 ∧ r.code = k.2.2 := by
  unfold statsKeys
  rw [List.mem_dedup, List.mem_filterMap]
  constructor
  · rintro ⟨r, hr, hk⟩
    unfold rowKey? at hk
    rcases Option.map_eq_some'.mp hk with ⟨y, hy, hval⟩
    refine ⟨r, hr, ?_, ?_, ?_⟩
    · rw [hy, ← hval]
    · rw [← hval]
    · rw [← hval]
  · rintro ⟨r, hr, hy, hn, hc⟩
    refine ⟨r, hr, ?_⟩
    unfold rowKey?
    rw [hy]
    show some (k.1, r.noc, r.code) = some k
    rw [hn, hc]

lemma ncKeys_nodup (df : List Row) : (ncKeys df).Nodup :=
  List.nodup_dedup _

lemma mem_ncKeys_of_key {df : List Row} {k : Int × String × String}
    (hk : k ∈ statsKeys df) : (k.2.1, k.2.2) ∈ ncKeys df := by
  rcases mem_statsKeys_iff.mp hk with ⟨r, hr, _, hn, hc⟩
  unfold ncKeys
  rw [List.mem_dedup, List.mem_map]
  exact ⟨r, hr, by rw [hn, hc]⟩

/-- The output row synthesized for one (year, noc, code) key: the stats row
extended with its group's historical rates and mean career length. -/
def outRow (df : List Row) (k : Int × String × String) : OutRow :=
  mkOut (mkStatsRow df k) (historicalRates (groupNC df k.2.1 k.2.2))
    (careerLength (groupNC df k.2.1 k.2.2))

lemma processData_eq_map (df : List Row) :
    processData df = (statsKeys df).map (outRow df) := by
  unfold processData
  have h1 : ∀ s ∈ statsRows df, (s.noc, s.code) ∈ ncKeys df := by
    intro s hs
    rcases List.mem_map.mp hs with ⟨k, hk, hval⟩
    rw [← hval]
    exact mem_ncKeys_of_key hk
  unfold ratesTable
  rw [leftJoin_table_eq_map (statsRows df) (ncKeys df) (ncKeys_nodup df)
    (fun p => historicalRates (groupNC df p.1 p.2)) _ _ _ h1]
  unfold careerTable
  rw [leftJoin_table_eq_map _ (ncKeys df) (ncKeys_nodup df)
    (fun p => careerLength (groupNC df p.1 p.2)) _ _ _ ?side]
  case side =>
    intro x hx
    rcases List.mem_map.mp hx with ⟨s, hs, hval⟩
    rw [← hval]
    exact h1 s hs
  unfold statsRows
  rw [List.map_map, List.map_map]
  rfl

lemma countP_eq_one_of_nodup {α : Type} [DecidableEq α] {l : List α} {a : α}
    (hn : l.Nodup) (ha : a ∈ l) : l.countP (fun x => decide (x = a)) = 1 := by
  rw [List.countP_eq_length_filter, filter_eq_singleton_of_nodup hn ha]
  rfl

lemma three_disjoint_filter_le {α : Type} (l : List α) (p q r : α → Bool)
    (hpq : ∀ x ∈ l, p x = true → q x = true → False)
    (hpr : ∀ x ∈ l, p x = true → r x = true → False)
    (hqr : ∀ x ∈ l, q x = true → r x = true → False) :
    (l.filter p).length + (l.filter q).length + (l.filter r).length ≤ l.length := by
  induction l with
  | nil => simp
  | cons a t ih =>
    have iht := ih (fun x hx => hpq x (List.mem_cons_of_mem a hx))
      (fun x hx => hpr x (List.mem_cons_of_mem a hx))
      (fun x hx => hqr x (List.mem_cons_of_mem a hx))
    have hhead := List.mem_cons_self a t
    rw [List.filter_cons, List.filter_cons, List.filter_cons]
    split_ifs <;>
      simp only [List.length_cons] <;>
      first
        | (exact absurd (hpq a hhead (by assumption) (by assumption)) not_false)
        | (exact absurd (hpr a hhead (by assumption) (by assumption)) not_false)
        | (exact absurd (hqr a hhead (by assumption) (by assumption)) not_false)
        | omega

lemma historicalRates_sum_le_one (group : List Row) :
    (historicalRates group).1 + (historicalRates group).2.1 + (historicalRates group).2.2 ≤ 1 := by
  unfold historicalRates
  dsimp only
  split_ifs with h1 h2
  · norm_num
  · norm_num
  · set hist := group.filter
      (fun r => (r.year).any (fun y => decide (y < (sortedYears group).getLastD 0))) with hhist
    set athletes := (hist.map (fun r => r.name)).dedup with hath
    have hT : 0 < (athletes.length : ℚ) := by
      have := Nat.pos_of_ne_zero h2
      exact_mod_cast this
    rw [div_add_div_same, div_add_div_same, div_le_one hT]
    have hsum :
        (athletes.filter (fun a => decide (bestMedal hist a = 1))).length +
        (athletes.filter (fun a => decide (bestMedal hist a = 2))).length +
        (athletes.filter (fun a => decide (bestMedal hist a = 3))).length ≤
          athletes.length := by
      refine three_disjoint_filter_le athletes _ _ _ ?_ ?_ ?_ <;>
        · intro x _ hx hy
          have ex := of_decide_eq_true hx
          have ey := of_decide_eq_true hy
          rw [ex] at ey
          exact absurd ey (by decide)
    exact_mod_cast hsum

/-- A small concrete appearance table used by the witnesses: three Games
(2000, 2004, 2008) of one country and sport, two athletes. -/
def sampleRows : List Row :=
  [⟨some 2000, "USA", "ATH", "100m", "A", some "Gold", 0⟩,
   ⟨some 2000, "USA", "ATH", "200m", "B", some "No medal", 0⟩,
   ⟨some 2004, "USA", "ATH", "100m", "A", some "Gold", 0⟩,
   ⟨some 2004, "USA", "ATH", "200m", "A", some "Silver", 0⟩,
   ⟨some 2008, "USA", "ATH", "100m", "A", some "Gold", 1⟩]

lemma sample_mem :
    outRow sampleRows (2008, "USA", "ATH") ∈ processData sampleRows := by
  rw [processData_eq_map]
  exact List.mem_map_of_mem (outRow sampleRows) (by decide)

/-- C1: every (year, noc, sport_code) key present among the input rows (with
a coercible year) appears on exactly one row of the final joined output:
the groupby emits one stats row per key, and both left-joins match each
stats row against exactly one row of the (noc, sport_code)-grain
subtables, so no key is lost or duplicated. -/
theorem c1_output_key_unique (df : List Row) (y : Int) (n c : String)
    (h : ∃ r ∈ df, r.year = some y ∧ r.noc = n ∧ r.code = c) :
    (processData df).countP (fun o => decide (o.time = y ∧ o.noc = n ∧ o.code = c)) = 1 := by
  rcases h with ⟨r, hr, hprops⟩
  have hmem : (y, n, c) ∈ statsKeys df := mem_statsKeys_iff.mpr ⟨r, hr, hprops⟩
  rw [processData_eq_map, List.countP_map]
  have hpred : ((fun o : OutRow => decide (o.time = y ∧ o.noc = n ∧ o.code = c)) ∘ outRow df)
      = fun k => decide (k = (y, n, c)) := by
    funext k
    simp only [Function.comp_apply]
    refine decide_eq_decide.mpr ?_
    show k.1 = y ∧ k.2.1 = n ∧ k.2.2 = c ↔ _
    constructor
    · rintro ⟨e1, e2, e3⟩
      exact Prod.ext e1 (Prod.ext e2 e3)
    · rintro rfl
      exact ⟨rfl, rfl, rfl⟩
  rw [hpred]
  exact countP_eq_one_of_nodup (List.nodup_dedup _) hmem

theorem c1_output_key_unique_witness :
    (∃ r ∈ sampleRows, r.year = some 2008 ∧ r.noc = "USA" ∧ r.code = "ATH") ∧
    (processData sampleRows).countP
      (fun o => decide (o.time = 2008 ∧ o.noc = "USA" ∧ o.code = "ATH")) = 1 :=
  ⟨by decide, c1_output_key_unique sampleRows 2008 "USA" "ATH" (by decide)⟩

/-- C2: the three historical medal-rate columns are broadcast from the
(noc, sport_code) group, so any two output rows sharing that pair carry
identical rates, whatever their years; and on every row the three rates
(exact rationals modelling the float divisions) sum to at most 1. -/
theorem c2_rates_per_group_sum_le_one (df : List Row) (o1 o2 : OutRow)
    (h1 : o1 ∈ processData df) (h2 : o2 ∈ processData df) :
    (o1.noc = o2.noc → o1.code = o2.code →
      o1.goldRate = o2.goldRate ∧ o1.silverRate = o2.silverRate ∧
        o1.bronzeRate = o2.bronzeRate) ∧
    o1.goldRate + o1.silverRate + o1.bronzeRate ≤ 1 := by
  rw [processData_eq_map] at h1 h2
  rcases List.mem_map.mp h1 with ⟨k1, _, e1⟩
  rcases List.mem_map.mp h2 with ⟨k2, _, e2⟩
  subst e1
  subst e2
  constructor
  · intro hn hc
    have hn2 : k1.2.1 = k2.2.1 := hn
    have hc2 : k1.2.2 = k2.2.2 := hc
    show (historicalRates (groupNC df k1.2.1 k1.2.2)).1
          = (historicalRates (groupNC df k2.2.1 k2.2.2)).1 ∧
        (historicalRates (groupNC df k1.2.1 k1.2.2)).2.1
          = (historicalRates (groupNC df k2.2.1 k2.2.2)).2.1 ∧
        (historicalRates (groupNC df k1.2.1 k1.2.2)).2.2
          = (historicalRates (groupNC df k2.2.1 k2.2.2)).2.2
    rw [hn2, hc2]
    exact ⟨rfl, rfl, rfl⟩
  · exact historicalRates_sum_le_one (groupNC df k1.2.1 k1.2.2)

theorem c2_rates_per_group_sum_le_one_witness :
    outRow sampleRows (2008, "USA", "ATH") ∈ processData sampleRows ∧
    (((outRow sampleRows (2008, "USA", "ATH")).noc
          = (outRow sampleRows (2008, "USA", "ATH")).noc →
        (outRow sampleRows (2008, "USA", "ATH")).code
          = (outRow sampleRows (2008, "USA", "ATH")).code →
        (outRow sampleRows (2008, "USA", "ATH")).goldRate
            = (outRow sampleRows (2008, "USA", "ATH")).goldRate ∧
          (outRow sampleRows (2008, "USA", "ATH")).silverRate
              = (outRow sampleRows (2008, "USA", "ATH")).silverRate ∧
            (outRow sampleRows (2008, "USA", "ATH")).bronzeRate
              = (outRow sampleRows (2008, "USA", "ATH")).bronzeRate) ∧
      (outRow sampleRows (2008, "USA", "ATH")).goldRate +
          (outRow sampleRows (2008, "USA", "ATH")).silverRate +
          (outRow sampleRows (2008, "USA", "ATH")).bronzeRate ≤ 1) :=
  ⟨sample_mem, c2_rates_per_group_sum_le_one sampleRows _ _ sample_mem sample_mem⟩

/-- C7: on every output row the actual gold, silver and bronze counts are
counts of disjoint row subsets of the key's group, so their sum never
exceeds the key's participation head-count. -/
theorem c7_medals_le_participation (df : List Row) (o : OutRow)
    (ho : o ∈ processData df) :
    o.goldCount + o.silverCount + o.bronzeCount ≤ o.participation := by
  rw [processData_eq_map] at ho
  rcases List.mem_map.mp ho with ⟨k, _, e⟩
  subst e
  show goldCount df k.1 k.2.1 k.2.2 + silverCount df k.1 k.2.1 k.2.2 +
      bronzeCount df k.1 k.2.1 k.2.2 ≤ participation df k.1 k.2.1 k.2.2
  unfold goldCount silverCount bronzeCount participation
  refine three_disjoint_filter_le (keyRows df k.1 k.2.1 k.2.2) _ _ _ ?_ ?_ ?_ <;>
    · intro x _ hx hy
      have ex := of_decide_eq_true hx
      have ey := of_decide_eq_true hy
      rw [ex] at ey
      exact absurd ey (by decide)

theorem c7_medals_le_participation_witness :
    outRow sampleRows (2008, "USA", "ATH") ∈ processData sampleRows ∧
    (outRow sampleRows (2008, "USA", "ATH")).goldCount +
        (outRow sampleRows (2008, "USA", "ATH")).silverCount +
        (outRow sampleRows (2008, "USA", "ATH")).bronzeCount ≤
      (outRow sampleRows (2008, "USA", "ATH")).participation :=
  ⟨sample_mem, c7_medals_le_participation sampleRows _ sample_mem⟩

lemma listIndex?_eq_none_of_not_mem {l : List Int} {y : Int} (h : y ∉ l) :
    listIndex? l y = none := by
  induction l with
  | nil => rfl
  | cons a t ih =>
    have hay : ¬(a = y) := fun e => h (e ▸ List.mem_cons_self a t)
    have hyt : y ∉ t := fun e => h (List.mem_cons_of_mem a e)
    unfold listIndex?
    rw [if_neg hay, ih hyt]
    rfl

/-- C9: the per-row lookback body is total: a failed lookup of the row's
year in the global year sequence (the caught `ValueError` of
`all_years.index`) yields (0, 0) for that row only, and the batch always
emits one output row per stats row, so no row's failure aborts the run. -/
theorem c9_lookup_failure_falls_back (df : List Row) (n c : String) (y : Int)
    (h : y ∉ sortedYears df) :
    starRisingForYear df n c y = (0, 0) ∧
      (processData df).length = (statsRows df).length := by
  constructor
  · have hnone := listIndex?_eq_none_of_not_mem h
    simp only [starRisingForYear, hnone]
  · rw [processData_eq_map]
    unfold statsRows
    rw [List.length_map, List.length_map]

theorem c9_lookup_failure_falls_back_witness :
    (1999 : Int) ∉ sortedYears sampleRows ∧
    (starRisingForYear sampleRows "USA" "ATH" 1999 = (0, 0) ∧
      (processData sampleRows).length = (statsRows sampleRows).length) :=
  ⟨by decide, c9_lookup_failure_falls_back sampleRows "USA" "ATH" 1999 (by decide)⟩

/-- C10: every output row's key is witnessed by an input row whose year
coerced successfully: rows whose year failed numeric coercion are dropped
by the key groupby and generate no output row at all. -/
theorem c10_missing_year_contributes_no_key (df : List Row) (o : OutRow)
    (ho : o ∈ processData df) :
    ∃ r ∈ df, r.year = some o.time ∧ r.noc = o.noc ∧ r.code = o.code := by
  rw [processData_eq_map] at ho
  rcases List.mem_map.mp ho with ⟨k, hk, e⟩
  subst e
  rcases mem_statsKeys_iff.mp hk with ⟨r, hr, h1, h2, h3⟩
  exact ⟨r, hr, h1, h2, h3⟩

theorem c10_missing_year_contributes_no_key_witness :
    outRow sampleRows (2008, "USA", "ATH") ∈ processData sampleRows ∧
    ∃ r ∈ sampleRows,
      r.year = some (outRow sampleRows (2008, "USA", "ATH")).time ∧
        r.noc = (outRow sampleRows (2008, "USA", "ATH")).noc ∧
          r.code = (outRow sampleRows (2008, "USA", "ATH")).code :=
  ⟨sample_mem, c10_missing_year_contributes_no_key sampleRows _ sample_mem⟩

/-- C6: the `year_sport_total_participation` column is the `transform("sum")`
of the per-key participation over the (year, sport_code) group, so on every
output row it equals the sum of `year_country_sport_participation` over all
output rows sharing that row's (year, sport_code). -/
theorem c6_sport_total_is_sum (df : List Row) (o : OutRow) (ho : o ∈ processData df) :
    o.yearSportTotal =
      (((processData df).filter (fun p => decide (p.time = o.time ∧ p.code = o.code))).map
        (fun p => p.participation)).sum := by
  rw [processData_eq_map] at ho ⊢
  rcases List.mem_map.mp ho with ⟨k, _, e⟩
  subst e
  rw [List.filter_map, List.map_map]
  show yearSportTotal df k.1 k.2.2 = _
  unfold yearSportTotal
  rfl

theorem c6_sport_total_is_sum_witness :
    outRow sampleRows (2008, "USA", "ATH") ∈ processData sampleRows ∧
    (outRow sampleRows (2008, "USA", "ATH")).yearSportTotal =
      (((processData sampleRows).filter
          (fun p => decide (p.time = (outRow sampleRows (2008, "USA", "ATH")).time ∧
            p.code = (outRow sampleRows (2008, "USA", "ATH")).code))).map
        (fun p => p.participation)).sum :=
  ⟨sample_mem, c6_sport_total_is_sum sampleRows _ sample_mem⟩

/-! ### The global / per-group sorted year sequence -/

lemma sortedYears_sorted (df : List Row) : (sortedYears df).Sorted (· ≤ ·) :=
  List.sorted_insertionSort _ _

lemma sortedYears_nodup (df : List Row) : (sortedYears df).Nodup :=
  ((List.perm_insertionSort _ _).nodup_iff).mpr (List.nodup_dedup _)

lemma mem_sortedYears {df : List Row} {a : Int} :
    a ∈ sortedYears df ↔ a ∈ df.filterMap (fun r => r.year) := by
  unfold sortedYears
  rw [(List.perm_insertionSort (· ≤ ·) ((df.filterMap (fun r => r.year)).dedup)).mem_iff]
  exact List.mem_dedup

lemma sortedYears_length (df : List Row) :
    (sortedYears df).length = ((df.filterMap (fun r => r.year)).toFinset).card := by
  unfold sortedYears
  rw [(List.perm_insertionSort (· ≤ ·) ((df.filterMap (fun r => r.year)).dedup)).length_eq,
    List.card_toFinset]

lemma getLastD_mem : ∀ (l : List Int) (d : Int), l ≠ [] → l.getLastD d ∈ l
  | [], _, h => absurd rfl h
  | [a], d, _ => by
    show a ∈ [a]
    exact List.mem_singleton.mpr rfl
  | a :: b :: u, d, _ => by
    show (b :: u).getLastD d ∈ a :: b :: u
    exact List.mem_cons_of_mem a (getLastD_mem (b :: u) d (by simp))

lemma sorted_le_getLastD : ∀ {l : List Int} (d : Int), l.Sorted (· ≤ ·) →
    ∀ x ∈ l, x ≤ l.getLastD d
  | [], _, _, x, hx => absurd hx (List.not_mem_nil x)
  | [a], d, _, x, hx => by
    rw [List.mem_singleton.mp hx]
    exact le_refl a
  | a :: b :: u, d, hs, x, hx => by
    rcases List.mem_cons.mp hx with h | h
    · subst h
      have hle : x ≤ b := (List.sorted_cons.mp hs).1 b (List.mem_cons_self b u)
      have := sorted_le_getLastD d (List.sorted_cons.mp hs).2 b (List.mem_cons_self b u)
      exact le_trans hle this
    · exact sorted_le_getLastD d (List.sorted_cons.mp hs).2 x h

lemma sortedYears_getLastD_eq_max' (df : List Row)
    (h : ((df.filterMap (fun r => r.year)).toFinset).Nonempty) :
    (sortedYears df).getLastD 0 = ((df.filterMap (fun r => r.year)).toFinset).max' h := by
  have hne : sortedYears df ≠ [] := by
    have := sortedYears_length df
    have hcard : 0 < ((df.filterMap (fun r => r.year)).toFinset).card := Finset.card_pos.mpr h
    intro e
    rw [e] at this
    simp only [List.length_nil] at this
    omega
  refine le_antisymm ?_ ?_
  · refine Finset.le_max' _ _ ?_
    rw [List.mem_toFinset]
    exact mem_sortedYears.mp (getLastD_mem _ 0 hne)
  · refine sorted_le_getLastD 0 (sortedYears_sorted df) _ ?_
    rw [mem_sortedYears, ← List.mem_toFinset]
    exact Finset.max'_mem _ h

/-- Deduplicated-list counting is Finset counting: the length of the filtered
dedup of a name list is the cardinality of the matching Finset filter. -/
lemma dedup_filter_length (l : List String) (p : String → Prop) [DecidablePred p] :
    (l.dedup.filter (fun a => decide (p a))).length = (l.toFinset.filter p).card := by
  have h1 : (l.dedup.filter (fun a => decide (p a))).Nodup := (List.nodup_dedup l).filter _
  rw [← List.toFinset_card_of_nodup h1]
  congr 1
  ext a
  simp only [List.mem_toFinset, List.mem_filter, List.mem_dedup, decide_eq_true_eq,
    Finset.mem_filter]

/-- The historical-rate computation as §4.4 words it: if the group has fewer
than 2 distinct years the three rates are 0; otherwise, with `historical`
the rows dated strictly before the maximum year of the group, each rate is
the number of distinct athletes of `historical` whose single best medal is
that colour, divided by the number of distinct athletes of `historical`
(all rates 0 when that number is 0). -/
def ratesSpec (group : List Row) : ℚ × ℚ × ℚ :=
  let ys : Finset Int := (group.filterMap (fun r => r.year)).toFinset
  if h : ys.card < 2 then (0, 0, 0)
  else
    let cur := ys.max' (Finset.card_pos.mp (by omega))
    let hist := group.filter (fun r => (r.year).any (fun y => decide (y < cur)))
    let A : Finset String := (hist.map (fun r => r.name)).toFinset
    if A.card = 0 then (0, 0, 0)
    else
      (((A.filter (fun a => bestMedal hist a = 1)).card : ℚ) / (A.card : ℚ),
       ((A.filter (fun a => bestMedal hist a = 2)).card : ℚ) / (A.card : ℚ),
       ((A.filter (fun a => bestMedal hist a = 3)).card : ℚ) / (A.card : ℚ))

/-- C3: `calculate_historical_rates` computes exactly the per-group
quantities the spec describes (distinct-year guard, strictly-earlier
slice, per-athlete best medal, head-count ratios). -/
theorem c3_historical_rates_match_spec (group : List Row)
    (_hv : ∀ r ∈ group, (r.year).isSome) :
    historicalRates group = ratesSpec group := by
  simp only [historicalRates, ratesSpec]
  rw [sortedYears_length group]
  by_cases h1 : ((group.filterMap (fun r => r.year)).toFinset).card < 2
  · rw [if_pos h1, dif_pos h1]
  · rw [if_neg h1, dif_neg h1]
    have hne : ((group.filterMap (fun r => r.year)).toFinset).Nonempty :=
      Finset.card_pos.mp (by omega)
    rw [sortedYears_getLastD_eq_max' group hne]
    set hist := group.filter (fun r => (r.year).any (fun y =>
      decide (y < ((group.filterMap (fun r => r.year)).toFinset).max' hne))) with hh
    have hA : ((hist.map (fun r => r.name)).dedup).length
        = ((hist.map (fun r => r.name)).toFinset).card := by
      rw [List.card_toFinset]
    rw [hA]
    by_cases h2 : ((hist.map (fun r => r.name)).toFinset).card = 0
    · rw [if_pos h2, if_pos h2]
    · rw [if_neg h2, if_neg h2]
      have e1 := dedup_filter_length (hist.map (fun r => r.name))
        (fun a => bestMedal hist a = 1)
      have e2 := dedup_filter_length (hist.map (fun r => r.name))
        (fun a => bestMedal hist a = 2)
      have e3 := dedup_filter_length (hist.map (fun r => r.name))
        (fun a => bestMedal hist a = 3)
      rw [e1, e2, e3]

theorem c3_historical_rates_match_spec_witness :
    (∀ r ∈ sampleRows, (r.year).isSome) ∧
      historicalRates sampleRows = ratesSpec sampleRows :=
  ⟨by decide, c3_historical_rates_match_spec sampleRows (by decide)⟩

/-! ### Career length -/

lemma listMin?_eq_none_iff {l : List Int} : listMin? l = none ↔ l = [] := by
  cases l with
  | nil => simp [listMin?]
  | cons a t =>
    constructor
    · intro h
      exfalso
      unfold listMin? at h
      cases ht : listMin? t <;> rw [ht] at h <;> cases h
    · intro h
      cases h

lemma listMax?_eq_none_iff {l : List Int} : listMax? l = none ↔ l = [] := by
  cases l with
  | nil => simp [listMax?]
  | cons a t =>
    constructor
    · intro h
      exfalso
      unfold listMax? at h
      cases ht : listMax? t <;> rw [ht] at h <;> cases h
    · intro h
      cases h

lemma listMin?_eq_some_iff : ∀ (l : List Int) (m : Int),
    listMin? l = some m ↔ (m ∈ l ∧ ∀ x ∈ l, m ≤ x)
  | [], m => by simp [listMin?]
  | a :: t, m => by
    unfold listMin?
    cases ht : listMin? t with
    | none =>
      have : t = [] := listMin?_eq_none_iff.mp ht
      subst this
      constructor
      · intro h
        cases h
        exact ⟨List.mem_singleton.mpr rfl, fun x hx => le_of_eq (List.mem_singleton.mp hx).symm⟩
      · rintro ⟨hm, _⟩
        rw [List.mem_singleton.mp hm]
    | some mt =>
      have hmt := (listMin?_eq_some_iff t mt).mp ht
      constructor
      · intro h
        cases h
        constructor
        · rcases le_total a mt with hle | hle
          · rw [min_eq_left hle]
            exact List.mem_cons_self a t
          · rw [min_eq_right hle]
            exact List.mem_cons_of_mem a hmt.1
        · intro x hx
          rcases List.mem_cons.mp hx with h | h
          · rw [h]
            exact min_le_left a mt
          · exact le_trans (min_le_right a mt) (hmt.2 x h)
      · rintro ⟨hm, hlb⟩
        refine congrArg some (le_antisymm ?_ ?_)
        · rcases List.mem_cons.mp hm with h | h
          · rw [← h] at *
            exact min_le_left _ _
          · exact le_trans (min_le_right a mt) (hmt.2 m h)
        · exact le_min (hlb a (List.mem_cons_self a t))
            (le_trans (hlb mt (List.mem_cons_of_mem a hmt.1)) (le_refl mt))

lemma listMax?_eq_some_iff : ∀ (l : List Int) (m : Int),
    listMax? l = some m ↔ (m ∈ l ∧ ∀ x ∈ l, x ≤ m)
  | [], m => by simp [listMax?]
  | a :: t, m => by
    unfold listMax?
    cases ht : listMax? t with
    | none =>
      have : t = [] := listMax?_eq_none_iff.mp ht
      subst this
      constructor
      · intro h
        cases h
        exact ⟨List.mem_singleton.mpr rfl, fun x hx => le_of_eq (List.mem_singleton.mp hx)⟩
      · rintro ⟨hm, _⟩
        rw [List.mem_singleton.mp hm]
    | some mt =>
      have hmt := (listMax?_eq_some_iff t mt).mp ht
      constructor
      · intro h
        cases h
        constructor
        · rcases le_total a mt with hle | hle
          · rw [max_eq_right hle]
            exact List.mem_cons_of_mem a hmt.1
          · rw [max_eq_left hle]
            exact List.mem_cons_self a t
        · intro x hx
          rcases List.mem_cons.mp hx with h | h
          · rw [h]
            exact le_max_left a mt
          · exact le_trans (hmt.2 x h) (le_max_right a mt)
      · rintro ⟨hm, hub⟩
        refine congrArg some (le_antisymm ?_ ?_)
        · exact max_le (hub a (List.mem_cons_self a t)) (hub mt (List.mem_cons_of_mem a hmt.1))
        · rcases List.mem_cons.mp hm with h | h
          · rw [h]
            exact le_max_left _ _
          · exact le_trans (hmt.2 m h) (le_max_right a mt)

/-- One athlete's span as the spec words it: maximum year minus minimum year
of that athlete's rows in the group (0 placeholders never surface for the
athletes of the group, all of whom have a coercible year). -/
def athleteSpan (group : List Row) (a : String) : Int :=
  (listMax? (athleteYears group a)).getD 0 - (listMin? (athleteYears group a)).getD 0

lemma athleteYears_ne_nil {group : List Row} (hv : ∀ r ∈ group, (r.year).isSome)
    {a : String} (ha : a ∈ group.map (fun r => r.name)) : athleteYears group a ≠ [] := by
  rcases List.mem_map.mp ha with ⟨r, hr, hname⟩
  rcases Option.isSome_iff_exists.mp (hv r hr) with ⟨y, hy⟩
  intro e
  have hmem : y ∈ athleteYears group a := by
    unfold athleteYears
    rw [List.mem_filterMap]
    exact ⟨r, List.mem_filter.mpr ⟨hr, decide_eq_true hname⟩, hy⟩
  rw [e] at hmem
  cases hmem

lemma nameSpan?_eq_some {group : List Row} {a : String}
    (hne : athleteYears group a ≠ []) :
    nameSpan? group a = some (athleteSpan group a) := by
  obtain ⟨hi, hhi⟩ : ∃ hi, listMax? (athleteYears group a) = some hi := by
    cases h : listMax? (athleteYears group a) with
    | none => exact absurd (listMax?_eq_none_iff.mp h) hne
    | some v => exact ⟨v, rfl⟩
  obtain ⟨lo, hlo⟩ : ∃ lo, listMin? (athleteYears group a) = some lo := by
    cases h : listMin? (athleteYears group a) with
    | none => exact absurd (listMin?_eq_none_iff.mp h) hne
    | some v => exact ⟨v, rfl⟩
  unfold nameSpan? athleteSpan
  rw [hhi, hlo]
  rfl

/-- Mean career length as §4.6 words it: 0 for a group whose earliest year
is 1896; otherwise the mean over the group's distinct athletes whose span
is at most 24 years of those spans, or 0 when no athlete survives the
outlier filter. -/
def careerSpec (group : List Row) : ℚ :=
  if (∃ r ∈ group, r.year = some 1896) ∧ (∀ r ∈ group, ∀ y ∈ (r.year).toList, 1896 ≤ y) then 0
  else
    let A : Finset String := (group.map (fun r => r.name)).toFinset
    let ok := A.filter (fun a => athleteSpan group a ≤ 24)
    if ok.card = 0 then 0
    else (Finset.sum ok (fun a => ((athleteSpan group a : Int) : ℚ))) / (ok.card : ℚ)

lemma filter_span_toFinset (group : List Row) :
    ((group.map (fun r => r.name)).dedup.filter
        (fun a => decide (athleteSpan group a ≤ 24))).toFinset
      = (group.map (fun r => r.name)).toFinset.filter (fun a => athleteSpan group a ≤ 24) := by
  ext a
  simp only [List.mem_toFinset, List.mem_filter, List.mem_dedup, decide_eq_true_eq,
    Finset.mem_filter]

lemma sum_valid_spans (group : List Row) :
    (((((group.map (fun r => r.name)).dedup.filter
        (fun a => decide (athleteSpan group a ≤ 24))).map (athleteSpan group)).sum : Int) : ℚ)
      = Finset.sum ((group.map (fun r => r.name)).toFinset.filter
          (fun a => athleteSpan group a ≤ 24)) (fun a => ((athleteSpan group a : Int) : ℚ)) := by
  have hnd : ((group.map (fun r => r.name)).dedup.filter
      (fun a => decide (athleteSpan group a ≤ 24))).Nodup := (List.nodup_dedup _).filter _
  rw [← filter_span_toFinset group, List.sum_toFinset _ hnd]
  push_cast
  rw [List.map_map]
  rfl

/-- C8: `calculate_career_length` computes exactly the per-group quantity
the spec describes: 0 when the group's earliest year is 1896, otherwise the
mean of per-athlete spans `max(year) - min(year)` after discarding spans
above 24 years, or 0 when nothing survives the filter. -/
theorem c8_career_length_match_spec (group : List Row)
    (hv : ∀ r ∈ group, (r.year).isSome) :
    careerLength group = careerSpec group := by
  by_cases hempty : group = []
  · subst hempty
    simp [careerLength, careerSpec]
  · have hbool : ¬(group.isEmpty = true) := fun h => hempty (List.isEmpty_iff.mp h)
    simp only [careerLength, careerSpec]
    rw [if_neg hbool]
    have hcond : (listMin? (group.filterMap (fun r => r.year)) = some 1896) ↔
        ((∃ r ∈ group, r.year = some 1896) ∧
          (∀ r ∈ group, ∀ y ∈ (r.year).toList, 1896 ≤ y)) := by
      rw [listMin?_eq_some_iff]
      constructor
      · rintro ⟨hm, hlb⟩
        constructor
        · rcases List.mem_filterMap.mp hm with ⟨r, hr, hy⟩
          exact ⟨r, hr, hy⟩
        · intro r hr y hy
          refine hlb y (List.mem_filterMap.mpr ⟨r, hr, ?_⟩)
          simpa using hy
      · rintro ⟨⟨r, hr, hy⟩, hall⟩
        constructor
        · exact List.mem_filterMap.mpr ⟨r, hr, hy⟩
        · intro x hx
          rcases List.mem_filterMap.mp hx with ⟨r2, hr2, hy2⟩
          exact hall r2 hr2 x (by simp [hy2])
    by_cases hc : (∃ r ∈ group, r.year = some 1896) ∧
        (∀ r ∈ group, ∀ y ∈ (r.year).toList, 1896 ≤ y)
    · rw [if_pos (hcond.mpr hc), if_pos hc]
    · rw [if_neg (fun h => hc (hcond.mp h)), if_neg hc]
      have hspan : ((group.map (fun r => r.name)).dedup).filterMap (nameSpan? group)
          = ((group.map (fun r => r.name)).dedup).map (athleteSpan group) :=
        List.filterMap_eq_map_iff_forall_eq_some.mpr (fun a ha =>
          nameSpan?_eq_some (athleteYears_ne_nil hv (List.mem_dedup.mp ha)))
      rw [hspan, List.filter_map]
      have hlen : (((group.map (fun r => r.name)).dedup.filter
            ((fun s => decide (s ≤ 24)) ∘ athleteSpan group)).map (athleteSpan group)).length
          = ((group.map (fun r => r.name)).toFinset.filter
              (fun a => athleteSpan group a ≤ 24)).card := by
        rw [List.length_map]
        exact dedup_filter_length (group.map (fun r => r.name))
          (fun a => athleteSpan group a ≤ 24)
      by_cases h2 : ((group.map (fun r => r.name)).toFinset.filter
          (fun a => athleteSpan group a ≤ 24)).card = 0
      · have hnil : (((group.map (fun r => r.name)).dedup.filter
            ((fun s => decide (s ≤ 24)) ∘ athleteSpan group)).map (athleteSpan group)).isEmpty
              = true := by
          rw [List.isEmpty_iff, ← List.length_eq_zero, hlen]
          exact h2
        rw [if_pos hnil, if_pos h2]
      · have hnnil : ¬((((group.map (fun r => r.name)).dedup.filter
            ((fun s => decide (s ≤ 24)) ∘ athleteSpan group)).map (athleteSpan group)).isEmpty
              = true) := by
          rw [List.isEmpty_iff, ← List.length_eq_zero, hlen]
          exact h2
        rw [if_neg hnnil, if_neg h2]
        congr 1
        · exact sum_valid_spans group
        · rw [hlen]

theorem c8_career_length_match_spec_witness :
    (∀ r ∈ sampleRows, (r.year).isSome) ∧
      careerLength sampleRows = careerSpec sampleRows :=
  ⟨by decide, c8_career_length_match_spec sampleRows (by decide)⟩

/-! ### Star / rising athlete lookback -/

lemma listIndex?_of_nodup_get? : ∀ {l : List Int}, l.Nodup →
    ∀ {i : Nat} {y : Int}, l.get? i = some y → listIndex? l y = some i
  | [], _, i, y, h => by cases h
  | a :: t, hn, i, y, h => by
    rw [List.nodup_cons] at hn
    cases i with
    | zero =>
      rw [List.get?_cons_zero] at h
      cases h
      unfold listIndex?
      rw [if_pos rfl]
    | succ j =>
      rw [List.get?_cons_succ] at h
      have hyt : y ∈ t := List.get?_mem h
      have hay : ¬(a = y) := fun e => hn.1 (e ▸ hyt)
      unfold listIndex?
      rw [if_neg hay, listIndex?_of_nodup_get? hn.2 h]
      rfl

lemma listIndex?_mem_take : ∀ (l : List Int) (m : Nat) (y : Int), y ∈ l.take m →
    ∃ j, listIndex? l y = some j ∧ j < m
  | [], m, y, h => by
    rw [List.take_nil] at h
    cases h
  | a :: t, 0, y, h => by cases h
  | a :: t, m + 1, y, h => by
    rw [List.take_succ_cons] at h
    unfold listIndex?
    by_cases hay : a = y
    · exact ⟨0, by rw [if_pos hay], Nat.succ_pos m⟩
    · rcases List.mem_cons.mp h with h1 | h1
      · exact absurd h1.symm hay
      · rcases listIndex?_mem_take t m y h1 with ⟨j, hj, hjm⟩
        refine ⟨j + 1, ?_, Nat.succ_lt_succ hjm⟩
        rw [if_neg hay, hj]
        rfl

lemma pos_medalYearCount_exists {df : List Row} {n c a : String} {y : Int}
    (h : 0 < medalYearCount df n c a y) :
    ∃ r ∈ df, hasMedalB r = true ∧ r.noc = n ∧ r.code = c ∧ r.name = a ∧
      r.year = some y := by
  unfold medalYearCount at h
  rcases List.exists_mem_of_ne_nil _ (List.length_pos.mp h) with ⟨r, hr⟩
  have hmem := (List.mem_filter.mp hr).1
  have hpred := (List.mem_filter.mp hr).2
  rcases Bool.and_eq_true_iff.mp hpred with ⟨hb, hd⟩
  rcases of_decide_eq_true hd with ⟨h1, h2, h3, h4⟩
  exact ⟨r, hmem, hb, h1, h2, h3, h4⟩

/-- Star-athlete count as §4.5 words it: the number of distinct athlete
names of the dataset holding a nonzero (noc, code) medal count in both
lookback Games. -/
def starSpec (df : List Row) (n c : String) (ly py : Int) : Nat :=
  (((df.map (fun r => r.name)).toFinset).filter (fun a =>
    0 < medalYearCount df n c a ly ∧ 0 < medalYearCount df n c a py)).card

/-- Rising-star count as §4.5 words it: the number of distinct athlete
names of the dataset with a (noc, code) medal count of at least 2 in the
immediately preceding Games. -/
def risingSpec (df : List Row) (n c : String) (ly : Int) : Nat :=
  (((df.map (fun r => r.name)).toFinset).filter (fun a =>
    2 ≤ medalYearCount df n c a ly)).card

lemma cands_filter_card (df : List Row) (n c : String) (ly py : Int)
    (p : String → Prop) [DecidablePred p]
    (hp : ∀ a, p a → ∃ r ∈ df, (hasMedalB r &&
      decide (r.noc = n ∧ r.code = c ∧ (r.year = some ly ∨ r.year = some py))) = true ∧
        r.name = a) :
    ((lookbackCandidates df n c ly py).filter (fun a => decide (p a))).length
      = (((df.map (fun r => r.name)).toFinset).filter p).card := by
  unfold lookbackCandidates
  rw [dedup_filter_length _ p]
  congr 1
  ext a
  simp only [Finset.mem_filter, List.mem_toFinset, List.mem_map, List.mem_filter]
  constructor
  · rintro ⟨⟨r, ⟨hrdf, _⟩, hname⟩, hpa⟩
    exact ⟨⟨r, hrdf, hname⟩, hpa⟩
  · rintro ⟨_, hpa⟩
    rcases hp a hpa with ⟨r, hrdf, hcond, hname⟩
    exact ⟨⟨r, ⟨hrdf, hcond⟩, hname⟩, hpa⟩

/-- C4: on every output row, the star count is 0 when the row's year sits
among the first two entries of the global sorted year sequence, and
otherwise counts the distinct athletes of the row's (noc, sport_code) with
a nonzero medal count in each of the two Games immediately preceding the
row's year in that global sequence. -/
theorem c4_star_count (df : List Row) (_hv : ∀ r ∈ df, (r.year).isSome)
    (o : OutRow) (ho : o ∈ processData df) :
    (o.time ∈ (sortedYears df).take 2 → o.starCount = 0) ∧
    (∀ i ly py, (sortedYears df).get? i = some o.time → 2 ≤ i →
      (sortedYears df).get? (i - 1) = some ly →
      (sortedYears df).get? (i - 2) = some py →
      o.starCount = starSpec df o.noc o.code ly py) := by
  rw [processData_eq_map] at ho
  rcases List.mem_map.mp ho with ⟨k, _, e⟩
  subst e
  constructor
  · intro htake
    have htake2 : k.1 ∈ (sortedYears df).take 2 := htake
    rcases listIndex?_mem_take (sortedYears df) 2 k.1 htake2 with ⟨j, hj, hjm⟩
    show (starRisingForYear df k.2.1 k.2.2 k.1).1 = 0
    simp only [starRisingForYear, hj]
    rw [if_pos hjm]
  · intro i ly py hget h2i hly hpy
    have hget2 : (sortedYears df).get? i = some k.1 := hget
    have hidx := listIndex?_of_nodup_get? (sortedYears_nodup df) hget2
    show (starRisingForYear df k.2.1 k.2.2 k.1).1 = starSpec df k.2.1 k.2.2 ly py
    simp only [starRisingForYear, hidx]
    rw [if_neg (Nat.not_lt.mpr h2i)]
    have hly2 : (sortedYears df).getD (i - 1) 0 = ly := by
      show ((sortedYears df).get? (i - 1)).getD 0 = ly
      rw [hly]
      rfl
    have hpy2 : (sortedYears df).getD (i - 2) 0 = py := by
      show ((sortedYears df).get? (i - 2)).getD 0 = py
      rw [hpy]
      rfl
    rw [hly2, hpy2]
    show ((lookbackCandidates df k.2.1 k.2.2 ly py).filter (fun a =>
      decide (0 < medalYearCount df k.2.1 k.2.2 a ly ∧
        0 < medalYearCount df k.2.1 k.2.2 a py))).length = _
    refine cands_filter_card df k.2.1 k.2.2 ly py _ ?_
    rintro a ⟨haly, _⟩
    rcases pos_medalYearCount_exists haly with ⟨r, hrdf, hb, h1, h2, h3, h4⟩
    exact ⟨r, hrdf,
      Bool.and_eq_true_iff.mpr ⟨hb, decide_eq_true ⟨h1, h2, Or.inl h4⟩⟩, h3⟩

theorem c4_star_count_witness :
    (∀ r ∈ sampleRows, (r.year).isSome) ∧
    outRow sampleRows (2008, "USA", "ATH") ∈ processData sampleRows ∧
    (sortedYears sampleRows).get? 2
        = some (outRow sampleRows (2008, "USA", "ATH")).time ∧
    (sortedYears sampleRows).get? 1 = some 2004 ∧
    (sortedYears sampleRows).get? 0 = some 2000 ∧
    (outRow sampleRows (2008, "USA", "ATH")).starCount
      = starSpec sampleRows (outRow sampleRows (2008, "USA", "ATH")).noc
          (outRow sampleRows (2008, "USA", "ATH")).code 2004 2000 :=
  ⟨by decide, sample_mem, by decide, by decide, by decide,
    (c4_star_count sampleRows (by decide) _ sample_mem).2 2 2004 2000
      (by decide) (by decide) (by decide) (by decide)⟩

/-- C5: on every output row whose year is not among the first two entries of
the global sorted year sequence, the rising-star count is the number of
distinct athletes of the row's (noc, sport_code) with two or more medals
(present and not the "No medal" sentinel) in the single Games immediately
preceding the row's year in that global sequence. -/
theorem c5_rising_count (df : List Row) (_hv : ∀ r ∈ df, (r.year).isSome)
    (o : OutRow) (ho : o ∈ processData df) :
    ∀ i ly, (sortedYears df).get? i = some o.time → 2 ≤ i →
      (sortedYears df).get? (i - 1) = some ly →
      o.risingCount = risingSpec df o.noc o.code ly := by
  rw [processData_eq_map] at ho
  rcases List.mem_map.mp ho with ⟨k, _, e⟩
  subst e
  intro i ly hget h2i hly
  have hget2 : (sortedYears df).get? i = some k.1 := hget
  have hidx := listIndex?_of_nodup_get? (sortedYears_nodup df) hget2
  show (starRisingForYear df k.2.1 k.2.2 k.1).2 = risingSpec df k.2.1 k.2.2 ly
  simp only [starRisingForYear, hidx]
  rw [if_neg (Nat.not_lt.mpr h2i)]
  have hly2 : (sortedYears df).getD (i - 1) 0 = ly := by
    show ((sortedYears df).get? (i - 1)).getD 0 = ly
    rw [hly]
    rfl
  rw [hly2]
  show ((lookbackCandidates df k.2.1 k.2.2 ly ((sortedYears df).getD (i - 2) 0)).filter
    (fun a => decide (2 ≤ medalYearCount df k.2.1 k.2.2 a ly))).length = _
  refine cands_filter_card df k.2.1 k.2.2 ly ((sortedYears df).getD (i - 2) 0) _ ?_
  intro a ha
  rcases pos_medalYearCount_exists (lt_of_lt_of_le Nat.zero_lt_two ha) with
    ⟨r, hrdf, hb, h1, h2, h3, h4⟩
  exact ⟨r, hrdf,
    Bool.and_eq_true_iff.mpr ⟨hb, decide_eq_true ⟨h1, h2, Or.inl h4⟩⟩, h3⟩

theorem c5_rising_count_witness :
    (∀ r ∈ sampleRows, (r.year).isSome) ∧
    outRow sampleRows (2008, "USA", "ATH") ∈ processData sampleRows ∧
    (sortedYears sampleRows).get? 2
        = some (outRow sampleRows (2008, "USA", "ATH")).time ∧
    (sortedYears sampleRows).get? 1 = some 2004 ∧
    (outRow sampleRows (2008, "USA", "ATH")).risingCount
      = risingSpec sampleRows (outRow sampleRows (2008, "USA", "ATH")).noc
          (outRow sampleRows (2008, "USA", "ATH")).code 2004 :=
  ⟨by decide, sample_mem, by decide, by decide,
    c5_rising_count sampleRows (by decide) _ sample_mem 2 2004
      (by decide) (by decide) (by decide)⟩

end OlympicStats
